import Mathlib

/-!
Verification development for the Holo Fuel market-simulation core
(`holofuel/model/trading/exchgs.py`, `actors.py`, `reserve_lifo.py`,
`trading/worlds/__init__.py`).

Numbers: the Python code computes with floats; we embed prices, amounts and
times as rationals.  The code treats `None` and IEEE NaN identically through
`non_value` (model/__init__.py), so the market-price sentinel is embedded as
`Option ℚ` with `none` standing for both.  Agents are referenced by a stable
identity (`Nat`); the pair of compatibility predicates `sells_to`/`buys_from`
enters every market routine only through `agents_compatible`, which we embed
as an explicit parameter `compat buyerId sellerId : Bool` (the base `agent`
class returns `True` for both, embedded as `trivial_compat`).
-/

/-
Rational arithmetic is sealed `irreducible` upstream; reopen it so that
concrete scenarios evaluate under `decide`.
-/
unseal Rat.add Rat.mul Rat.sub Rat.inv

namespace HoloFuel

/-- Embeds `trade_t` (exchgs.py:39): an immutable trade order.
`price = none` is the market-price sentinel (`None` or NaN in the source);
`amount` is positive for a buy, negative for a sell; `agent` is the
originating agent's identity. -/
structure trade_t where
  security : String
  price    : Option ℚ
  currency : String
  time     : ℚ
  amount   : ℚ
  agent    : Nat
deriving DecidableEq, Repr, Inhabited

/-- Embeds `non_value` (model/__init__.py:131): true for `None`/NaN prices. -/
def non_value (p : Option ℚ) : Bool :=
  p.isNone

/-- Embeds the comparison induced by `sell_book_key` (exchgs.py:69):
ascending `(nan_first(price), -time)`, so market-price sells sort first
and price ties are broken by descending `-time`. -/
def sell_key_le (x y : trade_t) : Bool :=
  match x.price, y.price with
  | none, none => decide (y.time ≤ x.time)
  | none, some _ => true
  | some _, none => false
  | some p, some q => decide (p < q ∨ (p = q ∧ y.time ≤ x.time))

/-- Embeds the comparison induced by `buy_book_key` (exchgs.py:73):
ascending `(nan_last(price), time)`, so market-price buys sort last. -/
def buy_key_le (x y : trade_t) : Bool :=
  match x.price, y.price with
  | none, none => decide (x.time ≤ y.time)
  | none, some _ => false
  | some _, none => true
  | some p, some q => decide (p < q ∨ (p = q ∧ x.time ≤ y.time))

/-- Inserting the appended order into an already-sorted book is what
`list.append` followed by the stable `list.sort(key=...)` (exchgs.py:219-230)
computes: the new order lands after every entry whose key is `≤` its own. -/
def book_insert (le : trade_t → trade_t → Bool) (o : trade_t) : List trade_t → List trade_t
  | [] => [o]
  | x :: xs => if le x o then x :: book_insert le o xs else o :: x :: xs

/-- Embeds the mutable state of `class market` (exchgs.py:77): the base
security name, currency, the two order books, the last executed buy record
and the transaction counter.  The `self.now` creation timestamp is read by
nothing we verify and is omitted. -/
structure Market where
  name        : String
  currency    : String
  buying      : List trade_t
  selling     : List trade_t
  last        : Option trade_t
  transaction : Nat
deriving DecidableEq, Repr

/-- The compatibility returned by `agents_compatible` for base agents
(exchgs.py:165, actors.py:87-93): always `True`. -/
def trivial_compat : Nat → Nat → Bool := fun _ _ => true

/-- Embeds `market.close` without a security argument (exchgs.py:145):
drop every order of the agent from both books. -/
def market_close (m : Market) (agentId : Nat) : Market :=
  { m with buying  := m.buying.filter (fun o => o.agent ≠ agentId),
           selling := m.selling.filter (fun o => o.agent ≠ agentId) }

/-- Embeds `market.buy_matches` (exchgs.py:177): scan the sell book for an
existing sell of the same agent whose price is compatible with the new buy;
stop early once both prices are limits and the sell is priced above the buy. -/
def buy_matches (compat : Nat → Nat → Bool) (o : trade_t) : List trade_t → Option trade_t
  | [] => none
  | s :: rest =>
    if compat o.agent s.agent ∧ s.agent = o.agent ∧
        (non_value s.price ∨ non_value o.price ∨
          s.price.getD 0 ≤ o.price.getD 0) then
      some s
    else if ¬ non_value s.price ∧ ¬ non_value o.price ∧ s.price.getD 0 > o.price.getD 0 then
      none
    else
      buy_matches compat o rest

/-- Embeds `market.sell_matches` (exchgs.py:187), the mirror image scan of
the buy book for a new sell order. -/
def sell_matches (compat : Nat → Nat → Bool) (o : trade_t) : List trade_t → Option trade_t
  | [] => none
  | b :: rest =>
    if compat b.agent o.agent ∧ b.agent = o.agent ∧
        (non_value b.price ∨ non_value o.price ∨
          b.price.getD 0 ≥ o.price.getD 0) then
      some b
    else if ¬ non_value b.price ∧ ¬ non_value o.price ∧ b.price.getD 0 < o.price.getD 0 then
      none
    else
      sell_matches compat o rest

/-- Embeds `market.enter` (exchgs.py:197): with `update` first close the
agent's open orders (asserting the order's security names this market);
without `update` refuse a self-matching order (`RuntimeError`, embedded as
`none`); then insert into the book the stable sort maintains. -/
def market_enter (compat : Nat → Nat → Bool) (m : Market) (o : trade_t)
    (update : Bool) : Option Market :=
  if update ∧ o.security ≠ m.name then
    none
  else
    let m := if update then market_close m o.agent else m
    if o.amount ≥ 0 then
      if ¬ update ∧ (buy_matches compat o m.selling).isSome then none
      else some { m with buying := book_insert buy_key_le o m.buying }
    else
      if ¬ update ∧ (sell_matches compat o m.buying).isSome then none
      else some { m with selling := book_insert sell_key_le o m.selling }

/-- Embeds `market.buy` (exchgs.py:155): construct the order on this
market's security and currency and enter it.  `now` is the caller-resolved
timestamp (the source substitutes `timer()` when `None`). -/
def market_buy (compat : Nat → Nat → Bool) (m : Market) (agentId : Nat)
    (amount : ℚ) (price : Option ℚ) (now : ℚ) (update : Bool) : Option Market :=
  market_enter compat m ⟨m.name, price, m.currency, now, amount, agentId⟩ update

/-- Embeds `market.sell` (exchgs.py:160): like `market.buy` with the amount
negated. -/
def market_sell (compat : Nat → Nat → Bool) (m : Market) (agentId : Nat)
    (amount : ℚ) (price : Option ℚ) (now : ℚ) (update : Bool) : Option Market :=
  market_enter compat m ⟨m.name, price, m.currency, now, -amount, agentId⟩ update

/-- The buy-side book index: Python index `-(b+1)` into `buying`, i.e. the
`b`-th entry counted from the tail of the book. -/
def buy_idx (m : Market) (b : Nat) : Nat :=
  m.buying.length - 1 - b

/-- The buy order the negative Python index `-(b+1)` designates. -/
def buy_at (m : Market) (b : Nat) : trade_t :=
  m.buying.getD (buy_idx m b) default

/-- The sell order at index `a` of the sell book. -/
def sell_at (m : Market) (a : Nat) : trade_t :=
  m.selling.getD a default

/-- Embeds `market.trade_possible` (exchgs.py:268): both indices in range
and either side at market price, or the ask at or below the bid.  The Python
bid index `-(b+1)` is encoded by the natural `b`, so `bid < 0`, `ask >= 0`
and `bid >= -len(buying)` become `b < len(buying)`. -/
def trade_possible (m : Market) (b a : Nat) : Bool :=
  decide (b < m.buying.length) && decide (a < m.selling.length) &&
    (non_value (sell_at m a).price || non_value (buy_at m b).price ||
      decide ((sell_at m a).price.getD 0 ≤ (buy_at m b).price.getD 0))

/-- The recursive core of the seek loop at the top of `market.execute`
(exchgs.py:327-330): starting from the outermost bid/ask pair, step the
indices diagonally inward until the parties at the indices are compatible
or no trade is possible.  The Python step takes the bid deeper when
`bidnow + asknow == 0`, i.e. (in our encoding) when `a = b + 1`, and the
ask deeper otherwise.  Recursion is bounded by explicit fuel because each
pass raises `b + a` by one while `trade_possible` keeps both indices
inside their books — so with fuel exceeding the length sum the loop always
exits through the same condition as the source. -/
def seek_compatible_fuel (compat : Nat → Nat → Bool) (m : Market) :
    Nat → Nat → Nat → Nat × Nat
  | 0, b, a => (b, a)
  | fuel + 1, b, a =>
    if trade_possible m b a = true ∧
        compat (buy_at m b).agent (sell_at m a).agent = false then
      if a = b + 1 then seek_compatible_fuel compat m fuel (b + 1) a
      else seek_compatible_fuel compat m fuel b (a + 1)
    else (b, a)

/-- The seek loop of `market.execute`, with fuel the loop cannot use up. -/
def seek_compatible (compat : Nat → Nat → Bool) (m : Market) (b a : Nat) :
    Nat × Nat :=
  seek_compatible_fuel compat m (m.buying.length + m.selling.length + 1) b a

/-- The price of the first priced order of a book, as scanned by the
`for order in search` loop of `execute_possible` (exchgs.py:401-404). -/
def first_priced : List trade_t → Option ℚ
  | [] => none
  | o :: rest => match o.price with
    | some p => some p
    | none => first_priced rest

/-- The traded quantity formed by `execute_possible` (exchgs.py:377):
`min( buying[bid].amount, -selling[ask].amount )`. -/
def trade_amt (m : Market) (b a : Nat) : ℚ :=
  min (buy_at m b).amount (-(sell_at m a).amount)

/-- Embeds the price-resolution cascade of `market.execute_possible`
(exchgs.py:381-409).  Returns `none` exactly when the Python loop hits
`break`: both sides at market price, no priced order on the searched book,
and no last trade. -/
def resolve_price (m : Market) (buyO sellO : trade_t) : Option ℚ :=
  if buyO.time < sellO.time then
    match sellO.price with
    | some p => some p
    | none =>
      match buyO.price with
      | some p => some p
      | none =>
        match first_priced m.selling with
        | some p => some p
        | none => m.last.bind (fun l => l.price)
  else
    match buyO.price with
    | some p => some p
    | none =>
      match sellO.price with
      | some p => some p
      | none =>
        match first_priced m.buying.reverse with
        | some p => some p
        | none => m.last.bind (fun l => l.price)

/-- Embeds one pass of the `while` body of `market.execute_possible`
(exchgs.py:370-427), which is all `market.execute` consumes before breaking
out to re-walk the book: form the trade amount and price at the given
indices, stamp the buy and sell records, set `last`, bump the transaction
counter and partially consume or delete the two book entries. -/
def execute_possible_first (now : ℚ) (m : Market) (b a : Nat) :
    Option ((trade_t × trade_t) × Market) :=
  if trade_possible m b a then
    let buyO := buy_at m b
    let sellO := sell_at m a
    let amt := trade_amt m b a
    match resolve_price m buyO sellO with
    | none => none
    | some p =>
      let buy : trade_t := ⟨m.name, some p, m.currency, now, amt, buyO.agent⟩
      let sell : trade_t := ⟨m.name, some p, m.currency, now, -amt, sellO.agent⟩
      let buying' := if amt = buyO.amount then m.buying.eraseIdx (buy_idx m b)
        else m.buying.set (buy_idx m b) { buyO with amount := buyO.amount - amt }
      let selling' := if amt = -sellO.amount then m.selling.eraseIdx a
        else m.selling.set a { sellO with amount := sellO.amount + amt }
      some ((buy, sell),
        { m with buying := buying', selling := selling',
                 last := some buy, transaction := m.transaction + 1 })
  else none

/-- One iteration of the outer loop of `market.execute` (exchgs.py:324-337):
seek the first mutually compatible pair from the outermost indices, then
execute at most one trade there. -/
def execute_step (compat : Nat → Nat → Bool) (now : ℚ) (m : Market) :
    Option ((trade_t × trade_t) × Market) :=
  let ba := seek_compatible compat m 0 0
  execute_possible_first now m ba.1 ba.2

/-- Drives `execute_step` to exhaustion, collecting the yielded
`(buy, sell)` pairs: the trade sequence of `market.execute` /
`market.execute_all` (exchgs.py:253-266).  `fuel` bounds the iteration
count; every claim below instantiates it generously. -/
def execute_all_fuel (compat : Nat → Nat → Bool) (now : ℚ) :
    Nat → Market → List (trade_t × trade_t) × Market
  | 0, m => ([], m)
  | fuel + 1, m =>
    match execute_step compat now m with
    | none => ([], m)
    | some (tr, m') =>
      let rest := execute_all_fuel compat now fuel m'
      (tr :: rest.1, rest.2)

/-!
Association lists embed Python dicts (insertion-ordered, unique keys):
`assets`, `balances`, a reserve's `reserves` tranches and an exchange's
`markets` map.
-/

/-- Dict lookup `d[k]` (first matching key). -/
def alGet {α β : Type} [DecidableEq α] (k : α) : List (α × β) → Option β
  | [] => none
  | (k', v) :: rest => if k' = k then some v else alGet k rest

/-- Dict store `d[k] = v`: update in place, or append a fresh key at the
end, as Python's insertion-ordered dicts do. -/
def alSet {α β : Type} [DecidableEq α] (k : α) (v : β) :
    List (α × β) → List (α × β)
  | [] => [(k, v)]
  | (k', v') :: rest => if k' = k then (k', v) :: rest else (k', v') :: alSet k v rest

/-- Dict removal `d.pop(k)` (first matching key). -/
def alRemove {α β : Type} [DecidableEq α] (k : α) :
    List (α × β) → List (α × β)
  | [] => []
  | (k', v') :: rest => if k' = k then rest else (k', v') :: alRemove k rest

/-- Key uniqueness, the invariant every Python dict satisfies. -/
def alNodup {α β : Type} [DecidableEq α] : List (α × β) → Prop
  | [] => True
  | (k, _) :: rest => alGet k rest = none ∧ alNodup rest

/-!  The agent layer (`actors.py`). -/

/-- Embeds the mutable state of `class agent` (actors.py:52): the identity,
the (possibly still undeduced) preferred currency, the append-only trade
log, the asset and balance ledgers, the last-execution time `self.now`
(`none` until the first qualifying `run`), `dt`, `start` and `quanta`. -/
structure Agent where
  identity : Nat
  currency : Option String
  trades   : List trade_t
  assets   : List (String × ℚ)
  balances : List (String × ℚ)
  now      : Option ℚ
  dt       : ℚ
  start    : ℚ
  quanta   : ℚ
deriving DecidableEq, Repr

/-- Embeds `agent.run` (actors.py:111): gate on `start`/`quanta`, and on a
qualifying tick store `self.now := now` before computing `dt` (hence the
source always records `dt = now - self.now = 0`).  Returns the updated
agent and the boolean the source returns. -/
def agent_run (a : Agent) (now : ℚ) : Agent × Bool :=
  if now ≥ a.start then
    if a.now.isNone ∨ now - a.now.getD 0 ≥ a.quanta then
      ({ a with now := some now, dt := now - now }, true)
    else (a, false)
  else (a, false)

/-- Embeds `agent.record` (actors.py:125): append the order to the trade
log, adopt its currency if none is set, add `amount` to
`assets[security]` and `-amount * price` to `balances[currency]` (missing
keys start at the order's contribution, per the `KeyError` handlers).
Multiplying a `None` price raises `TypeError` in Python, embedded as
`none`; the NaN price is collapsed into the same sentinel. -/
def agent_record (a : Agent) (o : trade_t) : Option Agent :=
  match o.price with
  | none => none
  | some p =>
    some { a with
      trades := a.trades ++ [o],
      currency := match a.currency with
        | none => some o.currency
        | c => c,
      assets := alSet o.security ((alGet o.security a.assets).getD 0 + o.amount) a.assets,
      balances := alSet o.currency
        ((alGet o.currency a.balances).getD 0 + (-o.amount * p)) a.balances }

/-- Embeds `agent.volume` (actors.py:147) over a given trade log: walk the
log in reverse; stop as soon as `period` is truthy (set and nonzero) and
the order's time falls before `now - period`; accumulate a buy/sell amount
only when `security` is truthy (set and non-empty) and equals the order's
security.  With `security = none` nothing is ever accumulated. -/
def volume_aux (security : Option String) (period : Option ℚ) (now : ℚ) :
    List trade_t → ℚ × ℚ
  | [] => (0, 0)
  | o :: rest =>
    if (match period with
        | some p => decide (p ≠ 0) && decide (o.time < now - p)
        | none => false) then
      (0, 0)
    else
      let bs := volume_aux security period now rest
      match security with
      | some s =>
        if s ≠ "" ∧ o.security = s then
          if o.amount < 0 then (bs.1, bs.2 - o.amount) else (bs.1 + o.amount, bs.2)
        else bs
      | none => bs

/-- `agent.volume` with `now` already resolved (the source substitutes
`self.now` for a missing `now`). -/
def volume (trades : List trade_t) (security : Option String)
    (period : Option ℚ) (now : ℚ) : ℚ × ℚ :=
  volume_aux security period now trades.reverse

/-!  The exchange layer (`exchgs.py:430`). -/

/-- Embeds the state of `class exchange` (exchgs.py:439): name, currency
and the lazily-populated security-to-market dict. -/
structure Exchange where
  name     : String
  currency : String
  markets  : List (String × Market)
deriving DecidableEq, Repr

/-- The market `exchange.buy`/`exchange.sell` create on first use of a
security (exchgs.py:467-468, 472-473): named `security/currency`, so
`market.__init__` takes `security` as the base name. -/
def exchange_new_market (e : Exchange) (security : String) : Market :=
  { name := security, currency := e.currency, buying := [], selling := [],
    last := none, transaction := 0 }

/-- Embeds `exchange.sell` (exchgs.py:471): create the market if missing,
then delegate — the source body delegates to `market.buy`, not
`market.sell`. -/
def exchange_sell (compat : Nat → Nat → Bool) (e : Exchange)
    (security : String) (agentId : Nat) (amount : ℚ) (price : Option ℚ)
    (now : ℚ) (update : Bool) : Option Exchange :=
  let mkt := (alGet security e.markets).getD (exchange_new_market e security)
  (market_buy compat mkt agentId amount price now update).map
    fun mkt' => { e with markets := alSet security mkt' e.markets }

/-- The method names bound by `class exchange` (exchgs.py:430-500), i.e.
the attributes an `exchange` instance can dispatch: `open` is not among
them. -/
def exchange_class_methods : List String :=
  ["close", "orders", "buy", "sell", "enter", "execute", "price"]

/-- Embeds the state `class actor` (actors.py:162) adds to `agent`:
target holdings and the minimum balance.  (The `needs` list is not
consulted by `cover_balance`.) -/
structure Actor where
  ag      : Agent
  target  : List (String × ℚ)
  minimum : ℚ
deriving DecidableEq, Repr

/-- The Python errors our embedding distinguishes. -/
inductive PyErr where
  | attributeError
deriving DecidableEq, Repr

/-- Embeds `actor.cover_balance` (actors.py:316): its first statement
iterates `exch.open( self )`, but `class exchange` binds no attribute
`open` (its enumeration method is `orders`, exchgs.py:456), so the
attribute lookup raises `AttributeError` before any order is summed; the
rest of the method body is unreachable on every input. -/
def cover_balance (e : Exchange) (a : Actor) : Except PyErr Actor :=
  if "open" ∈ exchange_class_methods then
    Except.ok a
  else
    Except.error PyErr.attributeError

/-!  The reserve market (`reserve_lifo.py:172`). -/

/-- Embeds the state of `class reserve` (reserve_lifo.py:186): it is both
a `market` and an `agent` on that market, plus the price-indexed
`reserves` tranche dict. -/
structure Reserve where
  mkt      : Market
  ag       : Agent
  reserves : List (ℚ × ℚ)
deriving DecidableEq, Repr

/-- Embeds `reserve.record` (reserve_lifo.py:213): base agent bookkeeping,
then `reserves.setdefault(order.price, 0)`, `reserves[order.price] -=
order.amount`, and removal of the tranche exactly when it hits zero. -/
def reserve_record (r : Reserve) (o : trade_t) : Option Reserve :=
  match o.price with
  | none => none
  | some p =>
    (agent_record r.ag o).map fun ag' =>
      let v := (alGet p r.reserves).getD 0 - o.amount
      { r with ag := ag',
               reserves := if v = 0 then alRemove p r.reserves
                 else alSet p v r.reserves }

/-- Embeds `reserve.run` (reserve_lifo.py:200): run the agent gate, close
all of the reserve's own open orders, then post one buy per reserve
tranche at its price (via `market.buy` with `update=None`, so the
self-match check runs against the just-closed book).  `wall` is the
injected `timer()` reading used when `now` is `None`. -/
def reserve_run (compat : Nat → Nat → Bool) (r : Reserve)
    (now : Option ℚ) (wall : ℚ) : Option Reserve :=
  let ag' := (agent_run r.ag (now.getD wall)).1
  let mkt1 := market_close r.mkt r.ag.identity
  (r.reserves.foldlM
      (fun mk pa =>
        market_buy compat mk r.ag.identity pa.2 (some pa.1) (now.getD wall) false)
      mkt1).map
    fun mkt2 => { r with mkt := mkt2, ag := ag' }

/-- Embeds the configuration `class reserve_issuing` (reserve_lifo.py:246)
adds to `reserve`. -/
structure ReserveIssuing where
  r                 : Reserve
  supply_book_value : ℚ
  supply_period     : ℚ
  supply_ratio      : ℚ
  supply_factor     : ℚ
  supply_premium    : ℚ
  supply_available  : ℚ
deriving DecidableEq, Repr

/-- Embeds `reserve_issuing.run` (reserve_lifo.py:275): the base reserve
run, then `volume(period=supply_period, now=now)` over the reserve agent's
own trade log, and — when the net sold volume falls short of
`supply_available` — one sell of the difference at
`supply_book_value * supply_premium` (posted through `market.sell` with
`now=None`, hence stamped with the wall clock). -/
def reserve_issuing_run (compat : Nat → Nat → Bool) (ri : ReserveIssuing)
    (now : Option ℚ) (wall : ℚ) : Option ReserveIssuing :=
  (reserve_run compat ri.r now wall).bind fun r' =>
    match now.orElse (fun _ => r'.ag.now) with
    | none => none
    | some volNow =>
      let bs := volume r'.ag.trades none (some ri.supply_period) volNow
      let supply_sold := bs.2 - bs.1
      if supply_sold < ri.supply_available then
        (market_sell compat r'.mkt r'.ag.identity
            (ri.supply_available - supply_sold)
            (some (ri.supply_book_value * ri.supply_premium)) wall false).map
          fun mkt' => { ri with r := { r' with mkt := mkt' } }
      else some { ri with r := r' }

/-!  The realtime world (`trading/worlds/__init__.py:75`). -/

/-- Embeds the state of `class world_realtime` (worlds/__init__.py:75):
`start`, `duration`, the backing `_scale` field of the `scale` property,
and `now`. -/
structure WorldRealtime where
  start    : ℚ
  duration : Option ℚ
  scaleV   : ℚ
  now      : ℚ
deriving DecidableEq, Repr

/-- Embeds the `scale` property setter (worlds/__init__.py:92-102).  When
the new value differs from `_scale` it rescales the synthetic `start` and
then executes `self.scale = value` — which re-enters this very setter
(the backing field `_scale` is never assigned), recursing until Python's
`RecursionError`.  `fuel` bounds the recursion depth; `none` means the
call has not returned within `fuel` re-entries. -/
def scale_set_fuel : Nat → WorldRealtime → ℚ → Option WorldRealtime
  | 0, _, _ => none
  | fuel + 1, w, value =>
    if value ≠ w.scaleV then
      let d := w.now - w.start
      let d := d * w.scaleV / value
      let w' := if d ≠ 0 then { w with start := w.now - d } else w
      scale_set_fuel fuel w' value
    else some w

/-!  Helper lemmas. -/

theorem alGet_alSet_self {α β : Type} [DecidableEq α] (k : α) (v : β)
    (l : List (α × β)) : alGet k (alSet k v l) = some v := by
  induction l with
  | nil => simp [alGet, alSet]
  | cons hd tl ih =>
    obtain ⟨k', v'⟩ := hd
    by_cases h : k' = k <;> simp [alGet, alSet, h, ih]

theorem alGet_alSet_ne {α β : Type} [DecidableEq α] {k q : α} (v : β)
    (l : List (α × β)) (h : q ≠ k) : alGet q (alSet k v l) = alGet q l := by
  have h' : ¬ k = q := fun hh => h hh.symm
  induction l with
  | nil => simp [alGet, alSet, h']
  | cons hd tl ih =>
    obtain ⟨k', v'⟩ := hd
    by_cases hk : k' = k
    · subst hk
      simp [alGet, alSet, h']
    · simp only [alSet, if_neg hk, alGet]
      by_cases hq : k' = q <;> simp [hq, ih]

theorem alGet_alRemove_self {α β : Type} [DecidableEq α] (k : α)
    {l : List (α × β)} (h : alNodup l) : alGet k (alRemove k l) = none := by
  induction l with
  | nil => simp [alGet, alRemove]
  | cons hd tl ih =>
    obtain ⟨k', v'⟩ := hd
    by_cases hk : k' = k
    · subst hk
      simpa [alRemove] using h.1
    · simp only [alRemove, if_neg hk, alGet, if_neg hk]
      exact ih h.2

theorem alGet_alRemove_ne {α β : Type} [DecidableEq α] {k q : α}
    (l : List (α × β)) (h : q ≠ k) : alGet q (alRemove k l) = alGet q l := by
  have h' : ¬ k = q := fun hh => h hh.symm
  induction l with
  | nil => simp [alGet, alRemove]
  | cons hd tl ih =>
    obtain ⟨k', v'⟩ := hd
    by_cases hk : k' = k
    · subst hk
      simp [alGet, alRemove, h']
    · simp only [alRemove, if_neg hk, alGet]
      by_cases hq : k' = q <;> simp [hq, ih]

/-- With the base agents' always-true compatibility, the seek loop of
`market.execute` stops at the indices it started from. -/
theorem seek_compatible_trivial (m : Market) (b a : Nat) :
    seek_compatible trivial_compat m b a = (b, a) := by
  rw [seek_compatible]
  rw [seek_compatible_fuel]
  simp [trivial_compat]

/-- `execute_step` with the default compatibility is the single-trade body
at the outermost indices. -/
theorem execute_step_trivial (now : ℚ) (m : Market) :
    execute_step trivial_compat now m = execute_possible_first now m 0 0 := by
  simp [execute_step, seek_compatible_trivial]

/-- Inversion of one executed trade: the yielded records and the book
mutation of `execute_possible` (exchgs.py:411-427), read off from a
successful `execute_possible_first`. -/
theorem execute_possible_first_inv {now : ℚ} {m : Market} {b a : Nat}
    {bt st : trade_t} {m' : Market}
    (h : execute_possible_first now m b a = some ((bt, st), m')) :
    trade_possible m b a = true ∧
    ∃ p, resolve_price m (buy_at m b) (sell_at m a) = some p ∧
      bt = ⟨m.name, some p, m.currency, now, trade_amt m b a, (buy_at m b).agent⟩ ∧
      st = ⟨m.name, some p, m.currency, now, -(trade_amt m b a), (sell_at m a).agent⟩ ∧
      m' = { m with
        buying :=
          if trade_amt m b a = (buy_at m b).amount
          then m.buying.eraseIdx (buy_idx m b)
          else m.buying.set (buy_idx m b)
            { buy_at m b with amount := (buy_at m b).amount - trade_amt m b a },
        selling :=
          if trade_amt m b a = -(sell_at m a).amount
          then m.selling.eraseIdx a
          else m.selling.set a
            { sell_at m a with amount := (sell_at m a).amount + trade_amt m b a },
        last := some bt, transaction := m.transaction + 1 } := by
  unfold execute_possible_first at h
  by_cases htp : trade_possible m b a = true
  · rw [if_pos htp] at h
    dsimp only at h
    refine ⟨htp, ?_⟩
    rcases hrp : resolve_price m (buy_at m b) (sell_at m a) with _ | p
    · rw [hrp] at h
      exact absurd h (by simp)
    · rw [hrp] at h
      simp only [Option.some.injEq, Prod.mk.injEq] at h
      obtain ⟨⟨hbt, hst⟩, hm⟩ := h
      subst hbt
      subst hst
      subst hm
      exact ⟨p, rfl, rfl, rfl, rfl⟩
  · rw [if_neg htp] at h
    exact absurd h (by simp)

/-!
Claim C1: the worked order-book example.  Agents: A = 1, B = 2, C = 3,
D = 4, E = 5.
-/

/-- The five orders of the worked example, in entry sequence. -/
def c1_orders : List trade_t :=
  [ ⟨"HoloFuel", some (405/100), "USD", 2,  500, 2⟩,
    ⟨"HoloFuel", some (410/100), "USD", 5, -100, 5⟩,
    ⟨"HoloFuel", some (401/100), "USD", 3, -200, 4⟩,
    ⟨"HoloFuel", some (400/100), "USD", 1, -250, 1⟩,
    ⟨"HoloFuel", some (400/100), "USD", 2, -200, 3⟩ ]

/-- The empty market the example starts from. -/
def c1_market0 : Market :=
  { name := "HoloFuel", currency := "USD", buying := [], selling := [],
    last := none, transaction := 0 }

/-- The book after the five `enter` calls. -/
def c1_entered : Option Market :=
  c1_orders.foldlM (fun m o => market_enter trivial_compat m o false) c1_market0

/-- Trades and final book of `execute` at `now = 6` (ten fuel is ample:
the loop stops after three trades). -/
def c1_result : Option (List (trade_t × trade_t) × Market) :=
  c1_entered.map (execute_all_fuel trivial_compat 6 10)

/-- C1, counterexample: the claim prices the first trade (C to B) at 4.00,
but the code executes it at the buyer's 4.05 limit — seller C did not enter
strictly after buyer B (both at time 2), so `execute_possible` prices the
trade at the buyer's bid (exchgs.py:390-392).  The executed price sequence
is 4.05, 4.05, 4.01, not 4.00, 4.00, 4.01. -/
theorem c1_counterexample :
    (c1_result.map fun r => r.1.map fun tp => tp.1.price)
      = some [some (81/20), some (81/20), some (401/100)] ∧
    some ((81 : ℚ)/20) ≠ some ((400 : ℚ)/100) := by
  constructor
  · decide
  · decide

/-- C1, amended: entering B buy 500 at 4.05 t=2, E sell 100 at 4.10 t=5,
D sell 200 at 4.01 t=3, A sell 250 at 4.00 t=1, C sell 200 at 4.00 t=2 and
executing yields exactly three trades in order — 200 at 4.05 between C and
B, 250 at 4.05 between A and B, 50 at 4.01 between D and B — and afterwards
the book holds exactly D sell 150 at 4.01 and E sell 100 at 4.10. -/
theorem c1_execute_trades_and_book :
    c1_result = some (
      [ (⟨"HoloFuel", some (81/20), "USD", 6, 200, 2⟩,
         ⟨"HoloFuel", some (81/20), "USD", 6, -200, 3⟩),
        (⟨"HoloFuel", some (81/20), "USD", 6, 250, 2⟩,
         ⟨"HoloFuel", some (81/20), "USD", 6, -250, 1⟩),
        (⟨"HoloFuel", some (401/100), "USD", 6, 50, 2⟩,
         ⟨"HoloFuel", some (401/100), "USD", 6, -50, 4⟩) ],
      { name := "HoloFuel", currency := "USD",
        buying := [],
        selling := [⟨"HoloFuel", some (401/100), "USD", 3, -150, 4⟩,
                    ⟨"HoloFuel", some (41/10), "USD", 5, -100, 5⟩],
        last := some ⟨"HoloFuel", some (401/100), "USD", 6, 50, 2⟩,
        transaction := 3 }) := by
  decide

/-!
Claim C2: price-time priority between two equal-priced buys.
-/

/-- Buy at 4 entered first (time 1, agent 1). -/
def c2_o1 : trade_t := ⟨"X", some 4, "USD", 1, 100, 1⟩

/-- Buy at 4 entered second (time 2, agent 2). -/
def c2_o2 : trade_t := ⟨"X", some 4, "USD", 2, 100, 2⟩

/-- A sell both buys can match. -/
def c2_s : trade_t := ⟨"X", some 4, "USD", 0, -100, 3⟩

/-- Empty market for the C2 scenario. -/
def c2_market0 : Market :=
  { name := "X", currency := "USD", buying := [], selling := [],
    last := none, transaction := 0 }

/-- The book after entering the two buys and the sell. -/
def c2_entered : Option Market :=
  [c2_o1, c2_o2, c2_s].foldlM
    (fun m o => market_enter trivial_compat m o false) c2_market0

/-- C2, counterexample: with two priced buys at price 4 — agent 1 entered
at time 1, agent 2 at time 2 — and one matchable sell, the first pair
`execute` yields matches agent 2, the buy entered second: `buy_book_key`
sorts equal-priced buys by ascending time and the matcher consumes the buy
book from its tail, so the newest equal-priced buy trades first, not the
oldest as claimed. -/
theorem c2_counterexample :
    (c2_entered.map fun m =>
        (execute_step trivial_compat 3 m).map fun x => x.1.1.agent)
      = some (some c2_o2.agent) ∧ c2_o2.agent ≠ c2_o1.agent := by
  constructor
  · decide
  · decide

/-- C2, amended: for every market holding exactly two priced buy orders at
the same limit price with different entry times and one sell order that can
match either, the first trade pair yielded by `execute` (with the base
agents' always-true compatibility) matches the buy order entered later —
the one with the larger time. -/
theorem c2_equal_price_later_buy_matched_first
    (now p : ℚ) (o1 o2 s : trade_t) (m : Market)
    (hb : m.buying = [o1, o2]) (hs : m.selling = [s])
    (hp1 : o1.price = some p) (hp2 : o2.price = some p)
    (ht : o1.time < o2.time)
    (hmatch : s.price = none ∨ ∃ q, s.price = some q ∧ q ≤ p) :
    ∃ bt st m', execute_step trivial_compat now m = some ((bt, st), m') ∧
      bt.agent = o2.agent := by
  have hbuy : buy_at m 0 = o2 := by simp [buy_at, buy_idx, hb]
  have hsell : sell_at m 0 = s := by simp [sell_at, hs]
  have htp : trade_possible m 0 0 = true := by
    rcases hmatch with hnone | ⟨q, hq, hle⟩
    · simp [trade_possible, hbuy, hsell, hb, hs, non_value, hnone]
    · simp [trade_possible, hbuy, hsell, hb, hs, non_value, hq, hp2, hle]
  have hrp : ∃ pr, resolve_price m o2 s = some pr := by
    by_cases hts : o2.time < s.time
    · rcases hmatch with hnone | ⟨q, hq, _⟩
      · exact ⟨p, by simp [resolve_price, hts, hnone, hp2]⟩
      · exact ⟨q, by simp [resolve_price, hts, hq]⟩
    · exact ⟨p, by simp [resolve_price, hts, hp2]⟩
  obtain ⟨pr, hpr⟩ := hrp
  rw [execute_step_trivial]
  unfold execute_possible_first
  rw [if_pos htp]
  dsimp only
  rw [hbuy, hsell, hpr]
  exact ⟨_, _, _, rfl, rfl⟩

/-- Market state for the C2 witness: the two equal-priced buys and the
matchable sell already on the (sorted) book. -/
def c2w_m : Market :=
  { name := "X", currency := "USD", buying := [c2_o1, c2_o2],
    selling := [c2_s], last := none, transaction := 0 }

/-- C2 witness: the amended theorem applied at the concrete scenario. -/
theorem c2_equal_price_later_buy_matched_first_witness :
    ∃ bt st m', execute_step trivial_compat 3 c2w_m = some ((bt, st), m') ∧
      bt.agent = c2_o2.agent :=
  c2_equal_price_later_buy_matched_first 3 4 c2_o1 c2_o2 c2_s c2w_m
    rfl rfl rfl rfl (by decide) (Or.inr ⟨4, rfl, le_refl 4⟩)

/-!
Claim C10: a partial fill leaves the rest of the book entry intact.
-/

/-- C10: whenever one matching step of `execute_possible` consumes only
part of a book entry (the traded amount differs from the entry's full
amount), the book keeps the entry at its position with the identical
security, price, currency, time and agent, and only the amount reduced
(buy side) or advanced toward zero (sell side) by the traded amount — so a
partially filled order keeps its original place, hence its time priority. -/
theorem c10_partial_fill_keeps_entry (now : ℚ) (m : Market) (b a : Nat)
    (bt st : trade_t) (m' : Market)
    (h : execute_possible_first now m b a = some ((bt, st), m')) :
    (trade_amt m b a ≠ (buy_at m b).amount →
      m'.buying = m.buying.set (buy_idx m b)
        { buy_at m b with amount := (buy_at m b).amount - trade_amt m b a }) ∧
    (trade_amt m b a ≠ -(sell_at m a).amount →
      m'.selling = m.selling.set a
        { sell_at m a with amount := (sell_at m a).amount + trade_amt m b a }) := by
  obtain ⟨htp, p, hpr, hbt, hst, hm⟩ := execute_possible_first_inv h
  subst hm
  constructor
  · intro hne
    simp [if_neg hne]
  · intro hne
    simp [if_neg hne]

/-- Market for the C10 witness: a buy of 500 against a sell of 200, so the
buy is filled only partially. -/
def c10_m : Market :=
  { name := "X", currency := "USD",
    buying := [⟨"X", some 5, "USD", 1, 500, 1⟩],
    selling := [⟨"X", some 5, "USD", 2, -200, 2⟩],
    last := none, transaction := 0 }

/-- Resulting market of the C10 witness step: the sell is consumed, the
buy stays with 300 remaining, the same time 1 and agent 1. -/
def c10_m' : Market :=
  { name := "X", currency := "USD",
    buying := [⟨"X", some 5, "USD", 1, 300, 1⟩],
    selling := [],
    last := some ⟨"X", some 5, "USD", 3, 200, 1⟩, transaction := 1 }

/-- C10 witness: the frame theorem applied to the concrete partial fill. -/
theorem c10_partial_fill_keeps_entry_witness :
    c10_m'.buying = c10_m.buying.set (buy_idx c10_m 0)
      { buy_at c10_m 0 with
          amount := (buy_at c10_m 0).amount - trade_amt c10_m 0 0 } :=
  (c10_partial_fill_keeps_entry 3 c10_m 0 0
      ⟨"X", some 5, "USD", 3, 200, 1⟩ ⟨"X", some 5, "USD", 3, -200, 2⟩ c10_m'
      (by decide)).1 (by decide)

/-!
Claim C3: ledger conservation across an executed trade pair.
-/

/-- Effect of `agent.record` on the ledgers when the order carries a real
price: the traded security's asset entry moves by `amount`, the order
currency's balance moves by `-amount * price`, and no other key of either
ledger changes. -/
theorem agent_record_some (a : Agent) (o : trade_t) (p : ℚ)
    (hp : o.price = some p) :
    ∃ a', agent_record a o = some a' ∧
      (alGet o.security a'.assets).getD 0
        = (alGet o.security a.assets).getD 0 + o.amount ∧
      (alGet o.currency a'.balances).getD 0
        = (alGet o.currency a.balances).getD 0 - o.amount * p ∧
      (∀ s, s ≠ o.security → alGet s a'.assets = alGet s a.assets) ∧
      (∀ c, c ≠ o.currency → alGet c a'.balances = alGet c a.balances) := by
  have hrec : agent_record a o = some { a with
      trades := a.trades ++ [o],
      currency := match a.currency with
        | none => some o.currency
        | c => c,
      assets := alSet o.security
        ((alGet o.security a.assets).getD 0 + o.amount) a.assets,
      balances := alSet o.currency
        ((alGet o.currency a.balances).getD 0 + (-o.amount * p)) a.balances } := by
    unfold agent_record
    rw [hp]
  refine ⟨_, hrec, ?_, ?_, ?_, ?_⟩
  · simp [alGet_alSet_self]
  · simp only [alGet_alSet_self, Option.getD_some]
    ring
  · intro s hs
    simp [alGet_alSet_ne _ _ hs]
  · intro c hc
    simp [alGet_alSet_ne _ _ hc]

/-- C3: every trade pair `execute` yields carries one resolved price, a buy
record and a sell record of opposite amounts on the same security and
currency; recording the buy with the buyer and the sell with the seller
(exactly what `execute_all` does with `record=True`) raises the buyer's
`assets[security]` by `amount` and lowers the seller's by `amount`, lowers
the buyer's `balances[currency]` by `amount * price` and raises the
seller's by the same — and touches no other ledger entry.  `agent.record`
is a pure function of the recorded agent's own state, so no other agent's
ledger can change. -/
theorem c3_trade_pair_conservation
    (compat : Nat → Nat → Bool) (now : ℚ) (m m' : Market)
    (bt st : trade_t) (buyer seller : Agent)
    (h : execute_step compat now m = some ((bt, st), m')) :
    ∃ p buyer' seller',
      bt.price = some p ∧ st.price = some p ∧
      st.security = bt.security ∧ st.currency = bt.currency ∧
      st.amount = -bt.amount ∧
      agent_record buyer bt = some buyer' ∧
      agent_record seller st = some seller' ∧
      (alGet bt.security buyer'.assets).getD 0
        = (alGet bt.security buyer.assets).getD 0 + bt.amount ∧
      (alGet bt.security seller'.assets).getD 0
        = (alGet bt.security seller.assets).getD 0 - bt.amount ∧
      (alGet bt.currency buyer'.balances).getD 0
        = (alGet bt.currency buyer.balances).getD 0 - bt.amount * p ∧
      (alGet bt.currency seller'.balances).getD 0
        = (alGet bt.currency seller.balances).getD 0 + bt.amount * p ∧
      (∀ s, s ≠ bt.security → alGet s buyer'.assets = alGet s buyer.assets) ∧
      (∀ s, s ≠ bt.security → alGet s seller'.assets = alGet s seller.assets) ∧
      (∀ c, c ≠ bt.currency → alGet c buyer'.balances = alGet c buyer.balances) ∧
      (∀ c, c ≠ bt.currency → alGet c seller'.balances = alGet c seller.balances) := by
  unfold execute_step at h
  obtain ⟨htp, p, hpr, hbt, hst, hm⟩ := execute_possible_first_inv h
  have hbtp : bt.price = some p := by rw [hbt]
  have hstp : st.price = some p := by rw [hst]
  have hsts : st.security = bt.security := by rw [hst, hbt]
  have hstc : st.currency = bt.currency := by rw [hst, hbt]
  have hsta : st.amount = -bt.amount := by rw [hst, hbt]
  obtain ⟨buyer', hbrec, hbassets, hbbal, hbfa, hbfb⟩ :=
    agent_record_some buyer bt p hbtp
  obtain ⟨seller', hsrec, hsassets, hsbal, hsfa, hsfb⟩ :=
    agent_record_some seller st p hstp
  rw [hsts, hsta] at hsassets
  rw [hstc, hsta] at hsbal
  rw [hsts] at hsfa
  rw [hstc] at hsfb
  refine ⟨p, buyer', seller', hbtp, hstp, hsts, hstc, hsta, hbrec, hsrec,
    hbassets, ?_, hbbal, ?_, hbfa, hsfa, hbfb, hsfb⟩
  · rw [hsassets]
    ring
  · rw [hsbal]
    ring

/-- Market for the C3 witness: one buy of 10 against one sell of 10 at
price 5. -/
def c3_m : Market :=
  { name := "X", currency := "USD",
    buying := [⟨"X", some 5, "USD", 1, 10, 1⟩],
    selling := [⟨"X", some 5, "USD", 2, -10, 2⟩],
    last := none, transaction := 0 }

/-- The buy record the C3 witness trade stamps. -/
def c3_bt : trade_t := ⟨"X", some 5, "USD", 3, 10, 1⟩

/-- The sell record the C3 witness trade stamps. -/
def c3_st : trade_t := ⟨"X", some 5, "USD", 3, -10, 2⟩

/-- Market left behind by the C3 witness trade. -/
def c3_m' : Market :=
  { name := "X", currency := "USD", buying := [], selling := [],
    last := some c3_bt, transaction := 1 }

/-- Buyer agent of the C3 witness. -/
def c3_buyer : Agent :=
  { identity := 1, currency := none, trades := [], assets := [],
    balances := [], now := none, dt := 0, start := 0, quanta := 0 }

/-- Seller agent of the C3 witness. -/
def c3_seller : Agent :=
  { identity := 2, currency := some "USD", trades := [],
    assets := [("X", 50)], balances := [("USD", 100)],
    now := none, dt := 0, start := 0, quanta := 0 }

/-- C3 witness: the conservation theorem applied to a concrete executed
pair. -/
theorem c3_trade_pair_conservation_witness :
    ∃ p buyer' seller',
      c3_bt.price = some p ∧ c3_st.price = some p ∧
      c3_st.security = c3_bt.security ∧ c3_st.currency = c3_bt.currency ∧
      c3_st.amount = -c3_bt.amount ∧
      agent_record c3_buyer c3_bt = some buyer' ∧
      agent_record c3_seller c3_st = some seller' ∧
      (alGet c3_bt.security buyer'.assets).getD 0
        = (alGet c3_bt.security c3_buyer.assets).getD 0 + c3_bt.amount ∧
      (alGet c3_bt.security seller'.assets).getD 0
        = (alGet c3_bt.security c3_seller.assets).getD 0 - c3_bt.amount ∧
      (alGet c3_bt.currency buyer'.balances).getD 0
        = (alGet c3_bt.currency c3_buyer.balances).getD 0 - c3_bt.amount * p ∧
      (alGet c3_bt.currency seller'.balances).getD 0
        = (alGet c3_bt.currency c3_seller.balances).getD 0 + c3_bt.amount * p ∧
      (∀ s, s ≠ c3_bt.security → alGet s buyer'.assets = alGet s c3_buyer.assets) ∧
      (∀ s, s ≠ c3_bt.security → alGet s seller'.assets = alGet s c3_seller.assets) ∧
      (∀ c, c ≠ c3_bt.currency → alGet c buyer'.balances = alGet c c3_buyer.balances) ∧
      (∀ c, c ≠ c3_bt.currency → alGet c seller'.balances = alGet c c3_seller.balances) :=
  c3_trade_pair_conservation trivial_compat 3 c3_m c3_m' c3_bt c3_st
    c3_buyer c3_seller (by decide)

/-!
Claim C4: `agent.volume` with no security.
-/

/-- A trade log with a single buy of 5 units of X at time 10. -/
def c4_trades : List trade_t := [⟨"X", some 1, "USD", 10, 5, 1⟩]

/-- C4: contrary to the claim, `volume` called without a security counts
no trade at all — the guard `if security and order.security == security`
(actors.py:154) skips every accumulation when `security` is `None` — so
the result is always `(0, 0)` over any log and window; with the security
given, the same window does count the 5-unit buy. -/
theorem c4_volume_without_security_is_zero :
    (∀ (trades : List trade_t) (period : Option ℚ) (now : ℚ),
        volume trades none period now = (0, 0)) ∧
    volume c4_trades (some "X") (some 100) 10 = (5, 0) := by
  constructor
  · intro trades period now
    unfold volume
    generalize trades.reverse = l
    induction l with
    | nil => rfl
    | cons o rest ih =>
      simp only [volume_aux]
      split
      · rfl
      · exact ih
  · decide

/-!
Claim C5: the issuing reserve's supply computation.
-/

/-- The issuing reserve's agent state: it has already sold (issued) 10
units at time 50, inside the trailing one-hour window of `now = 100`. -/
def c5_ag : Agent :=
  { identity := 0, currency := some "USD",
    trades := [⟨"HoloFuel", some 1, "USD", 50, -10, 0⟩],
    assets := [], balances := [], now := none, dt := 0, start := 0, quanta := 0 }

/-- The reserve part of the C5 scenario: empty book, no tranches. -/
def c5_reserve : Reserve :=
  { mkt := { name := "HoloFuel", currency := "USD", buying := [],
             selling := [], last := none, transaction := 0 },
    ag := c5_ag, reserves := [] }

/-- The issuing reserve of the C5 scenario: only 5 units budgeted per
hour, all already spent (10 sold) if volumes were counted. -/
def c5_ri : ReserveIssuing :=
  { r := c5_reserve, supply_book_value := 1, supply_period := 3600,
    supply_ratio := 1, supply_factor := 1, supply_premium := 1,
    supply_available := 5 }

/-- C5: the reserve's actual traded volumes over the trailing period are
`(buy, sell) = (0, 10)`, so the claim's `remaining = 5 - (10 - 0) = -5 ≤ 0`
demands that no sell be posted; but `reserve_issuing.run` calls `volume`
without a security, which returns `(0, 0)` (see C4), so the code posts a
sell of the full `supply_available = 5` at `supply_book_value *
supply_premium = 1` anyway. -/
theorem c5_issuing_ignores_traded_volume :
    ((reserve_issuing_run trivial_compat c5_ri (some 100) 100).map
        fun ri => ri.r.mkt.selling)
      = some [⟨"HoloFuel", some 1, "USD", 100, -5, 0⟩] ∧
    volume c5_ag.trades (some "HoloFuel") (some 3600) 100 = (0, 10) := by
  constructor
  · decide
  · decide

/-!
Claim C6: `reserve.record` and the tranche ledger.
-/

/-- A reserve with a single tranche of 100 at price 1. -/
def c6_r : Reserve :=
  { mkt := { name := "X", currency := "USD", buying := [], selling := [],
             last := none, transaction := 0 },
    ag := { identity := 0, currency := some "USD", trades := [],
            assets := [], balances := [], now := none, dt := 0,
            start := 0, quanta := 0 },
    reserves := [(1, 100)] }

/-- The buy record delivered to the reserve when an outside sell of 40 is
matched against its tranche: the reserve is the buyer, so the amount is
positive. -/
def c6_o : trade_t := ⟨"X", some 1, "USD", 3, 40, 0⟩

/-- C6, counterexample: recording a buy of 40 against the 100-unit tranche
leaves 60 in the tranche — `reserve.record` subtracts the order amount
(reserve_lifo.py:217) — whereas the claim's `reserves[order.price] +=
order.amount` would predict 140. -/
theorem c6_counterexample :
    ((reserve_record c6_r c6_o).map fun r => alGet 1 r.reserves)
      = some (some 60) ∧
    some (60 : ℚ) ≠ some ((alGet 1 c6_r.reserves).getD 0 + c6_o.amount) := by
  constructor
  · decide
  · decide

/-- C6, amended: after `reserve.record(order)` completes on an order with
price `p`, the tranche at `p` has been adjusted by `reserves[p] -=
order.amount` (decremented when the reserve buys, incremented when it
sells), a tranche reaching exactly zero is removed, and every other
tranche is untouched. -/
theorem c6_record_decrements_tranche (r : Reserve) (o : trade_t) (p : ℚ)
    (r' : Reserve) (hp : o.price = some p) (hnd : alNodup r.reserves)
    (h : reserve_record r o = some r') :
    alGet p r'.reserves =
      (if (alGet p r.reserves).getD 0 - o.amount = 0 then none
       else some ((alGet p r.reserves).getD 0 - o.amount)) ∧
    ∀ q, q ≠ p → alGet q r'.reserves = alGet q r.reserves := by
  unfold reserve_record at h
  rw [hp] at h
  rcases har : agent_record r.ag o with _ | ag'
  · exfalso
    unfold agent_record at har
    rw [hp] at har
    exact absurd har (by simp)
  · rw [har] at h
    simp only [Option.map_some'] at h
    obtain rfl := (Option.some.inj h).symm
    constructor
    · by_cases hz : (alGet p r.reserves).getD 0 - o.amount = 0
      · simp [hz, alGet_alRemove_self p hnd]
      · simp [hz, alGet_alSet_self]
    · intro q hq
      by_cases hz : (alGet p r.reserves).getD 0 - o.amount = 0
      · simp [hz, alGet_alRemove_ne _ hq]
      · simp [hz, alGet_alSet_ne _ _ hq]

/-- The reserve state after the C6 witness record: tranche down to 60, the
order logged, assets up by 40, balance down by 40. -/
def c6w_r' : Reserve :=
  { mkt := { name := "X", currency := "USD", buying := [], selling := [],
             last := none, transaction := 0 },
    ag := { identity := 0, currency := some "USD", trades := [c6_o],
            assets := [("X", 40)], balances := [("USD", -40)],
            now := none, dt := 0, start := 0, quanta := 0 },
    reserves := [(1, 60)] }

/-- C6 witness: the amended tranche law applied to the concrete record. -/
theorem c6_record_decrements_tranche_witness :
    alGet 1 c6w_r'.reserves =
      (if (alGet 1 c6_r.reserves).getD 0 - c6_o.amount = 0 then none
       else some ((alGet 1 c6_r.reserves).getD 0 - c6_o.amount)) ∧
    ∀ q, q ≠ (1 : ℚ) → alGet q c6w_r'.reserves = alGet q c6_r.reserves :=
  c6_record_decrements_tranche c6_r c6_o 1 c6w_r' rfl
    (by exact ⟨rfl, trivial⟩) (by decide)

/-!
Claim C7: `exchange.sell`.
-/

/-- An empty exchange in USD. -/
def c7_exch : Exchange := { name := "Exch", currency := "USD", markets := [] }

/-- C7: `exchange.sell` delegates to `market.buy` (exchgs.py:474), so
selling 100 units of X at 5 through the exchange leaves an open BUY of
+100 on the new market's buy book and an empty sell book — not the
negative-amount sell order the claim specifies. -/
theorem c7_exchange_sell_enters_buy :
    ((exchange_sell trivial_compat c7_exch "X" 1 100 (some 5) 0 true).map
        fun e => (alGet "X" e.markets).map fun mk => (mk.buying, mk.selling))
      = some (some ([⟨"X", some 5, "USD", 0, 100, 1⟩], [])) := by
  decide

/-!
Claim C8: `actor.cover_balance`.
-/

/-- C8: every call of `actor.cover_balance` on an exchange raises
`AttributeError` — its first statement iterates `exch.open( self )` and
`class exchange` binds no attribute `open` — so the claimed
value-summation and conditional `raise_capital` can never execute. -/
theorem c8_cover_balance_raises_attribute_error (e : Exchange) (a : Actor) :
    cover_balance e a = Except.error PyErr.attributeError := by
  unfold cover_balance
  rw [if_neg (by decide)]

/-!
Claim C9: re-scaling the realtime world.
-/

/-- C9: setting the `scale` property of a realtime world to any value
different from the current `_scale` never returns, at any recursion
depth: the setter ends with `self.scale = value`, which re-enters the
setter itself (worlds/__init__.py:102) without ever assigning the backing
`_scale` field, so the guard `value != self._scale` stays true forever
and Python dies with `RecursionError`.  The claimed
set-then-set-back round trip therefore never completes its first step. -/
theorem c9_scale_set_never_returns (fuel : Nat) (w : WorldRealtime)
    (value : ℚ) (h : value ≠ w.scaleV) :
    scale_set_fuel fuel w value = none := by
  induction fuel generalizing w with
  | zero => rfl
  | succ n ih =>
    unfold scale_set_fuel
    rw [if_pos h]
    refine ih _ ?_
    split
    · exact h
    · exact h

/-- C9 witness: rescaling from 1 to 2 with `now = 10` has not returned
after a thousand re-entries. -/
theorem c9_scale_set_never_returns_witness :
    scale_set_fuel 1000 ⟨0, some 60, 1, 10⟩ 2 = none :=
  c9_scale_set_never_returns 1000 ⟨0, some 60, 1, 10⟩ 2 (by norm_num)

end HoloFuel
